import Mathlib

/-!
# Verification of the telegram bridge (`TelegramBot.ts` / `TelegramService.ts`)

Shallow embedding of the session-multiplexing, reply-correlation and
output-buffering engine of the telegram package, together with proofs of the
behavioural claims about it.

Text is modelled as `List Char` (JS strings with `+=`, `substring`, `length`);
JS `Map`s that are only read by key are modelled as functions into `Option`;
the `pendingChatIds` JS `Set` (which is iterated in insertion order) is
modelled as a duplicate-free list with insertion at the end.  Fallible
transport calls (`bot.sendMessage` / `bot.editMessageText`) are modelled by a
`TransportOutcome` parameter supplied by the caller: `ok mid` (success,
returning message id `mid`), `notModified` (the platform's
"message is not modified" edit failure) and `err` (any other failure).
-/

namespace Telegram

/-- Text as a list of characters (JS string). -/
abbrev Str := List Char

/-- Telegram chat identifiers (negative for groups). -/
abbrev ChatId := Int

/-- Per-chat output buffer; mirrors `type ChatBuffer` of `TelegramBot.ts`
(`text`, `lastSentText?`, `messageId?`). -/
structure ChatBuffer where
  text : Str
  lastSentText : Option Str
  messageId : Option Nat
deriving DecidableEq

/-- A transport call made through the Telegram API
(`bot.sendMessage` / `bot.editMessageText`). -/
inductive TransportCall where
  | send (chatId : ChatId) (text : Str)
  | edit (chatId : ChatId) (messageId : Nat) (text : Str)
deriving DecidableEq

/-- Outcome of the single transport call a `flushBuffer` invocation makes:
success (with the platform-assigned message id, meaningful for sends),
the benign "message is not modified" edit rejection, or any other error. -/
inductive TransportOutcome where
  | ok (messageId : Nat)
  | notModified
  | err
deriving DecidableEq

/-- The fields of `class TelegramBot` that the output aggregator touches:
`chatBuffers`, `pendingChatIds`, `messageIdToBotUsername` and the bot's own
`botUsername`.  (`lastSendTime` / `sendTimer` / `isProcessing` belong to the
scheduler and are modelled separately in `SchedState`.) -/
structure BotState where
  chatBuffers : ChatId → Option ChatBuffer
  pendingChatIds : List ChatId
  messageIdToBotUsername : Nat → Option String
  botUsername : String

/-- Models `Set.add` on `pendingChatIds`: insertion order, no duplicates. -/
def addPending (l : List ChatId) (c : ChatId) : List ChatId :=
  if c ∈ l then l else l ++ [c]

/-- Models `this.chatBuffers.set(chatId, b)`. -/
def setBuffer (st : BotState) (chatId : ChatId) (b : ChatBuffer) : BotState :=
  { st with chatBuffers := fun c => if c = chatId then some b else st.chatBuffers c }

/-- Models `this.messageIdToBotUsername.set(mid, this.botUsername!)`. -/
def trackUsername (st : BotState) (mid : Nat) : BotState :=
  { st with messageIdToBotUsername :=
      fun i => if i = mid then some st.botUsername else st.messageIdToBotUsername i }

/-- The constant `MAX_MESSAGE_LENGTH = 4090` ("slightly under 4096 to be safe"). -/
def MAX_MESSAGE_LENGTH : Nat := 4090

/-- Models `handleChatOutput(chatId, content)`: create the buffer if absent, append
`content` to `buffer.text`, add the chat to `pendingChatIds`
(`scheduleSend()` belongs to the scheduler model). -/
def handleChatOutput (st : BotState) (chatId : ChatId) (content : Str) : BotState :=
  let buffer := (st.chatBuffers chatId).getD ⟨[], none, none⟩
  let st1 := setBuffer st chatId { buffer with text := buffer.text ++ content }
  { st1 with pendingChatIds := addPending st1.pendingChatIds chatId }

/-- Models `flushBuffer(chatId)`, with the outcome of its (at most one) transport
call supplied as `o`.  Returns the new state and the list of transport calls
attempted.  Mirrors the source line by line:
* missing buffer, empty `text`, or `text === lastSentText` → no-op;
* `text.length > MAX_MESSAGE_LENGTH` → send/edit the first
  `MAX_MESSAGE_LENGTH` characters (errors logged and swallowed by the inner
  `catch`), then reset the buffer to the remainder with `messageId`
  cleared and `lastSentText = ''`, and re-add the chat to `pendingChatIds`;
* otherwise, if no `messageId`, send the full text and on success record the
  returned id and `lastSentText` (a failed send is caught by the outer
  `catch`, leaving the buffer untouched); if a `messageId` exists, edit it,
  updating `lastSentText` on success; the "message is not modified"
  rejection is swallowed without updating `lastSentText`, and any other edit
  error is rethrown into the outer `catch`, leaving the buffer untouched. -/
def flushBuffer (o : TransportOutcome) (st : BotState) (chatId : ChatId) :
    BotState × List TransportCall :=
  match st.chatBuffers chatId with
  | none => (st, [])
  | some buffer =>
    if buffer.text = [] ∨ buffer.lastSentText = some buffer.text then (st, [])
    else
      let textToSend := buffer.text
      if MAX_MESSAGE_LENGTH < textToSend.length then
        let currentChunk := textToSend.take MAX_MESSAGE_LENGTH
        let remaining := textToSend.drop MAX_MESSAGE_LENGTH
        match buffer.messageId with
        | some mid =>
          let st1 := setBuffer st chatId ⟨remaining, some [], none⟩
          ({ st1 with pendingChatIds := addPending st1.pendingChatIds chatId },
           [.edit chatId mid currentChunk])
        | none =>
          let st0 := match o with
            | .ok mid => trackUsername st mid
            | _ => st
          let st1 := setBuffer st0 chatId ⟨remaining, some [], none⟩
          ({ st1 with pendingChatIds := addPending st1.pendingChatIds chatId },
           [.send chatId currentChunk])
      else
        match buffer.messageId with
        | none =>
          match o with
          | .ok mid =>
            (setBuffer (trackUsername st mid) chatId
               ⟨textToSend, some textToSend, some mid⟩,
             [.send chatId textToSend])
          | _ => (st, [.send chatId textToSend])
        | some mid =>
          match o with
          | .ok _ =>
            (setBuffer st chatId { buffer with lastSentText := some textToSend },
             [.edit chatId mid textToSend])
          | .notModified => (st, [.edit chatId mid textToSend])
          | .err => (st, [.edit chatId mid textToSend])

/-- Models `processPending()`: snapshot `pendingChatIds`, clear the set, flush every
snapshotted chat once in order.  The per-chat transport outcome is supplied
by `oracle` (each chat occurs at most once in the snapshot). -/
def processPending (oracle : ChatId → TransportOutcome) (st : BotState) :
    BotState × List TransportCall :=
  let chatIds := st.pendingChatIds
  List.foldl
    (fun acc c =>
      let r := flushBuffer (oracle c) acc.1 c
      (r.1, acc.2 ++ r.2))
    ({ st with pendingChatIds := [] }, []) chatIds

/-- A buffer is dirty when `flushBuffer` would attempt a transport call. -/
def dirtyBuffer : Option ChatBuffer → Prop
  | none => False
  | some b => ¬ (b.text = [] ∨ b.lastSentText = some b.text)

instance : DecidablePred dirtyBuffer := by
  intro b
  unfold dirtyBuffer
  cases b <;> infer_instance

/-!
## Reliable-platform model

For the end-to-end output claims (C1, C6) the transport is the real platform
behaving normally: every send succeeds and returns a fresh message id, every
edit of an existing message succeeds.  `Platform` records the messages of the
channel in send order together with their current (possibly edited) text.
-/

/-- The platform's view of one chat: messages in send order with their
currently displayed text, and the next fresh message id. -/
structure Platform where
  messages : List (Nat × Str)
  nextId : Nat

/-- Effect of a transport call on the platform: a send appends a fresh
message, an edit replaces the text of the message with that id. -/
def applyCall (p : Platform) : TransportCall → Platform
  | .send _ t => ⟨p.messages ++ [(p.nextId, t)], p.nextId + 1⟩
  | .edit _ mid t =>
      ⟨p.messages.map (fun m => if m.1 = mid then (mid, t) else m), p.nextId⟩

/-- Outcome the reliable platform gives to the one call `flushBuffer` is
about to make: a fresh id for a send (no `messageId` in the buffer), plain
success for an edit. -/
def reliableOutcome (st : BotState) (p : Platform) (c : ChatId) : TransportOutcome :=
  match st.chatBuffers c with
  | none => .ok 0
  | some b =>
    match b.messageId with
    | none => .ok p.nextId
    | some _ => .ok 0

/-- One `flushBuffer` invocation against the reliable platform. -/
def flushP (sp : BotState × Platform) (c : ChatId) : BotState × Platform :=
  let r := flushBuffer (reliableOutcome sp.1 sp.2 c) sp.1 c
  (r.1, List.foldl applyCall sp.2 r.2)

/-- Interleaved history of one channel: `handleChatOutput` appends and
scheduled flush cycles. -/
inductive ChanOp where
  | app (f : Str)
  | flush

/-- Run a history against bot state and platform. -/
def runOps (c : ChatId) (sp : BotState × Platform) : List ChanOp → BotState × Platform
  | [] => sp
  | .app f :: ops => runOps c (handleChatOutput sp.1 c f, sp.2) ops
  | .flush :: ops => runOps c (flushP sp c) ops

/-- Fresh bot state: no buffers, nothing pending, nothing tracked. -/
def startState : BotState := ⟨fun _ => none, [], fun _ => none, "bot"⟩

/-- Fresh platform: no messages yet. -/
def startPlatform : Platform := ⟨[], 1⟩

/-- Concatenation, in order, of all fragments appended in a history. -/
def appendsOf : List ChanOp → Str
  | [] => []
  | .app f :: ops => f ++ appendsOf ops
  | .flush :: ops => appendsOf ops

/-- Text of the channel's buffer (empty when absent). -/
def bufText (sp : BotState × Platform) (c : ChatId) : Str :=
  match sp.1.chatBuffers c with
  | none => []
  | some b => b.text

/-- The text of the channel's platform messages, in send order. -/
def visibleTexts (p : Platform) : List Str := p.messages.map Prod.snd

/-- Splitting a text at the length ceiling: successive
`MAX_MESSAGE_LENGTH`-character blocks with the (nonempty) remainder last. -/
def chunks (s : Str) : List Str :=
  if s.length ≤ MAX_MESSAGE_LENGTH then
    if s = [] then [] else [s]
  else
    s.take MAX_MESSAGE_LENGTH :: chunks (s.drop MAX_MESSAGE_LENGTH)
termination_by s.length
decreasing_by
  simp only [List.length_drop]
  unfold MAX_MESSAGE_LENGTH at *
  omega

/-- The completion signal: keep flushing (the re-enqueue loop of
`flushBuffer`/`processPending`) until the buffer is clean, with enough fuel. -/
def settleFuel (c : ChatId) : Nat → BotState × Platform → BotState × Platform
  | 0, sp => sp
  | n + 1, sp =>
    if dirtyBuffer (sp.1.chatBuffers c) then settleFuel c n (flushP sp c) else sp

/-- Flush cycles run after the completion signal until quiescence. -/
def settle (c : ChatId) (sp : BotState × Platform) : BotState × Platform :=
  settleFuel c ((bufText sp c).length + 2) sp

end Telegram

namespace Telegram

@[simp] lemma setBuffer_chatBuffers_self (st : BotState) (c : ChatId) (b : ChatBuffer) :
    (setBuffer st c b).chatBuffers c = some b := by
  simp [setBuffer]

@[simp] lemma trackUsername_chatBuffers (st : BotState) (mid : Nat) :
    (trackUsername st mid).chatBuffers = st.chatBuffers := rfl

/-- All existing platform message ids are below the fresh-id counter. -/
def msgIdsBelow (p : Platform) : Prop := ∀ m ∈ p.messages, m.1 < p.nextId

/-- Core invariant tying the platform's messages, the channel's buffer and
the total appended text `a` together:
* no buffer yet → nothing was appended and nothing sent;
* buffer without `messageId` (fresh, or just split at the ceiling) → every
  platform message is a finalized full-ceiling block, the blocks followed by
  the buffered text reconstitute `a`, and `lastSentText` is unset or empty;
* buffer with a live `messageId` → that id is the platform's last message,
  it currently displays exactly `lastSentText`, a nonempty prefix of the
  buffered text of at most ceiling length; all earlier messages are
  finalized full-ceiling blocks, and blocks plus buffered text give `a`. -/
def InvBuf (p : Platform) (ob : Option ChatBuffer) (a : Str) : Prop :=
  match ob with
  | none => p.messages = [] ∧ a = []
  | some b =>
    match b.messageId with
    | none =>
        (p.messages.map Prod.snd).flatten ++ b.text = a
        ∧ (∀ m ∈ p.messages, (Prod.snd m).length = MAX_MESSAGE_LENGTH)
        ∧ (b.lastSentText = none ∨ b.lastSentText = some [])
    | some mid =>
        ∃ ms v, p.messages = ms ++ [(mid, v)]
          ∧ b.lastSentText = some v
          ∧ v <+: b.text
          ∧ v ≠ []
          ∧ v.length ≤ MAX_MESSAGE_LENGTH
          ∧ mid ∉ ms.map Prod.fst
          ∧ (ms.map Prod.snd).flatten ++ b.text = a
          ∧ (∀ m ∈ ms, (Prod.snd m).length = MAX_MESSAGE_LENGTH)

/-- Invariant of the channel-`c` output pipeline. -/
def Inv (c : ChatId) (sp : BotState × Platform) (a : Str) : Prop :=
  InvBuf sp.2 (sp.1.chatBuffers c) a ∧ msgIdsBelow sp.2

lemma editList_last (ms : List (Nat × Str)) (mid : Nat) (v t : Str)
    (h : mid ∉ ms.map Prod.fst) :
    (ms ++ [(mid, v)]).map (fun m => if m.1 = mid then (mid, t) else m)
      = ms ++ [(mid, t)] := by
  induction ms with
  | nil => simp
  | cons hd tl ih =>
    simp only [List.map_cons, List.mem_cons, not_or] at h
    obtain ⟨h1, h2⟩ := h
    have h1' : hd.1 ≠ mid := Ne.symm h1
    rw [List.cons_append, List.map_cons, ih h2]
    simp [h1']

/-- The `chunks` of a sequence of full blocks followed by a short tail is exactly
those blocks followed by the (nonempty) tail. -/
lemma chunks_blocks (L : List Str) (t : Str)
    (hL : ∀ x ∈ L, x.length = MAX_MESSAGE_LENGTH)
    (ht : t.length ≤ MAX_MESSAGE_LENGTH) :
    chunks (L.flatten ++ t) = if t = [] then L else L ++ [t] := by
  induction L with
  | nil =>
    rw [List.flatten_nil, List.nil_append]
    by_cases h0 : t = []
    · simp [h0, chunks]
    · rw [chunks]
      simp [ht, h0]
  | cons x L ih =>
    have hx : x.length = MAX_MESSAGE_LENGTH := hL x (List.mem_cons_self x L)
    have hL' : ∀ y ∈ L, y.length = MAX_MESSAGE_LENGTH :=
      fun y hy => hL y (List.mem_cons_of_mem x hy)
    by_cases hr : L.flatten ++ t = []
    · have hLnil : L = [] := by
        rcases List.append_eq_nil.mp hr with ⟨h1, _⟩
        exact List.flatten_eq_nil_iff.mp h1 |> fun hall => by
          cases L with
          | nil => rfl
          | cons z zs =>
            have hz := hL' z (List.mem_cons_self z zs)
            have : z = [] := hall z (List.mem_cons_self z zs)
            rw [this] at hz
            simp [MAX_MESSAGE_LENGTH] at hz
      have htnil : t = [] := (List.append_eq_nil.mp hr).2
      subst hLnil htnil
      have hxne : x ≠ [] := by
        intro hxe
        rw [hxe] at hx
        simp [MAX_MESSAGE_LENGTH] at hx
      rw [List.flatten_cons, List.flatten_nil, List.append_nil, List.append_nil, chunks]
      simp [hx, hxne]
    · have hlen : ¬ (x ++ (L.flatten ++ t)).length ≤ MAX_MESSAGE_LENGTH := by
        rw [List.length_append, hx]
        have : 0 < (L.flatten ++ t).length := List.length_pos.mpr hr
        omega
      rw [List.flatten_cons, List.append_assoc, chunks]
      simp only [hlen, if_false]
      have htake : (x ++ (L.flatten ++ t)).take MAX_MESSAGE_LENGTH = x := by
        rw [← hx]
        exact List.take_left x (L.flatten ++ t)
      have hdrop : (x ++ (L.flatten ++ t)).drop MAX_MESSAGE_LENGTH = L.flatten ++ t := by
        rw [← hx]
        exact List.drop_left x (L.flatten ++ t)
      rw [htake, hdrop, ih hL']
      by_cases h0 : t = [] <;> simp [h0]

section FlushEval

variable {c : ChatId} {sp : BotState × Platform} {b : ChatBuffer}

lemma flushP_no_buffer (hb : sp.1.chatBuffers c = none) : flushP sp c = sp := by
  simp [flushP, flushBuffer, reliableOutcome, hb]

lemma flushP_clean (hb : sp.1.chatBuffers c = some b)
    (hcl : b.text = [] ∨ b.lastSentText = some b.text) : flushP sp c = sp := by
  simp [flushP, flushBuffer, reliableOutcome, hb, hcl]

lemma flushP_long_send (hb : sp.1.chatBuffers c = some b)
    (hcl : ¬ (b.text = [] ∨ b.lastSentText = some b.text))
    (hlen : MAX_MESSAGE_LENGTH < b.text.length) (hmid : b.messageId = none) :
    (flushP sp c).1.chatBuffers c
        = some ⟨b.text.drop MAX_MESSAGE_LENGTH, some [], none⟩
      ∧ (flushP sp c).2
        = ⟨sp.2.messages ++ [(sp.2.nextId, b.text.take MAX_MESSAGE_LENGTH)],
           sp.2.nextId + 1⟩ := by
  constructor <;>
    simp [flushP, flushBuffer, reliableOutcome, hb, hcl, hlen, hmid, applyCall,
      trackUsername, setBuffer]

lemma flushP_long_edit {mid : Nat} (hb : sp.1.chatBuffers c = some b)
    (hcl : ¬ (b.text = [] ∨ b.lastSentText = some b.text))
    (hlen : MAX_MESSAGE_LENGTH < b.text.length) (hmid : b.messageId = some mid) :
    (flushP sp c).1.chatBuffers c
        = some ⟨b.text.drop MAX_MESSAGE_LENGTH, some [], none⟩
      ∧ (flushP sp c).2
        = ⟨sp.2.messages.map
             (fun m => if m.1 = mid then (mid, b.text.take MAX_MESSAGE_LENGTH) else m),
           sp.2.nextId⟩ := by
  constructor <;>
    simp [flushP, flushBuffer, reliableOutcome, hb, hcl, hlen, hmid, applyCall,
      setBuffer]

lemma flushP_short_send (hb : sp.1.chatBuffers c = some b)
    (hcl : ¬ (b.text = [] ∨ b.lastSentText = some b.text))
    (hlen : ¬ MAX_MESSAGE_LENGTH < b.text.length) (hmid : b.messageId = none) :
    (flushP sp c).1.chatBuffers c
        = some ⟨b.text, some b.text, some sp.2.nextId⟩
      ∧ (flushP sp c).2
        = ⟨sp.2.messages ++ [(sp.2.nextId, b.text)], sp.2.nextId + 1⟩ := by
  constructor <;>
    simp [flushP, flushBuffer, reliableOutcome, hb, hcl, hlen, hmid, applyCall,
      trackUsername, setBuffer]

lemma flushP_short_edit {mid : Nat} (hb : sp.1.chatBuffers c = some b)
    (hcl : ¬ (b.text = [] ∨ b.lastSentText = some b.text))
    (hlen : ¬ MAX_MESSAGE_LENGTH < b.text.length) (hmid : b.messageId = some mid) :
    (flushP sp c).1.chatBuffers c = some { b with lastSentText := some b.text }
      ∧ (flushP sp c).2
        = ⟨sp.2.messages.map (fun m => if m.1 = mid then (mid, b.text) else m),
           sp.2.nextId⟩ := by
  constructor <;>
    simp [flushP, flushBuffer, reliableOutcome, hb, hcl, hlen, hmid, applyCall,
      setBuffer]

end FlushEval

lemma InvBuf_none (p : Platform) (a : Str) :
    InvBuf p none a ↔ (p.messages = [] ∧ a = []) := Iff.rfl

lemma InvBuf_mk_none (p : Platform) (bt : Str) (bl : Option Str) (a : Str) :
    InvBuf p (some ⟨bt, bl, none⟩) a ↔
      ((p.messages.map Prod.snd).flatten ++ bt = a
        ∧ (∀ m ∈ p.messages, (Prod.snd m).length = MAX_MESSAGE_LENGTH)
        ∧ (bl = none ∨ bl = some [])) := Iff.rfl

lemma InvBuf_mk_some (p : Platform) (bt : Str) (bl : Option Str) (mid : Nat) (a : Str) :
    InvBuf p (some ⟨bt, bl, some mid⟩) a ↔
      (∃ ms v, p.messages = ms ++ [(mid, v)]
        ∧ bl = some v
        ∧ v <+: bt
        ∧ v ≠ []
        ∧ v.length ≤ MAX_MESSAGE_LENGTH
        ∧ mid ∉ ms.map Prod.fst
        ∧ (ms.map Prod.snd).flatten ++ bt = a
        ∧ (∀ m ∈ ms, (Prod.snd m).length = MAX_MESSAGE_LENGTH)) := Iff.rfl

lemma Inv_handleChatOutput (c : ChatId) (sp : BotState × Platform) (a f : Str)
    (h : Inv c sp a) : Inv c (handleChatOutput sp.1 c f, sp.2) (a ++ f) := by
  obtain ⟨hbuf, hids⟩ := h
  refine ⟨?_, hids⟩
  cases hb : sp.1.chatBuffers c with
  | none =>
    rw [hb, InvBuf_none] at hbuf
    obtain ⟨hmsgs, ha⟩ := hbuf
    have hgoal : (handleChatOutput sp.1 c f).chatBuffers c = some ⟨f, none, none⟩ := by
      simp [handleChatOutput, hb]
    rw [hgoal, InvBuf_mk_none]
    simp [hmsgs, ha]
  | some b =>
    obtain ⟨bt, bl, bm⟩ := b
    rw [hb] at hbuf
    have hgoal : (handleChatOutput sp.1 c f).chatBuffers c = some ⟨bt ++ f, bl, bm⟩ := by
      simp [handleChatOutput, hb]
    rw [hgoal]
    cases bm with
    | none =>
      rw [InvBuf_mk_none] at hbuf ⊢
      obtain ⟨heq, hlens, hlast⟩ := hbuf
      exact ⟨by rw [← List.append_assoc, heq], hlens, hlast⟩
    | some mid =>
      rw [InvBuf_mk_some] at hbuf ⊢
      obtain ⟨ms, v, hmsgs, hlast, hpre, hne, hvlen, hnotin, heq, hlens⟩ := hbuf
      exact ⟨ms, v, hmsgs, hlast, hpre.trans (bt.prefix_append f), hne, hvlen,
        hnotin, by rw [← List.append_assoc, heq], hlens⟩

lemma Inv_flushP (c : ChatId) (sp : BotState × Platform) (a : Str)
    (h : Inv c sp a) : Inv c (flushP sp c) a := by
  obtain ⟨hbuf, hids⟩ := h
  cases hb : sp.1.chatBuffers c with
  | none => rw [flushP_no_buffer hb]; exact ⟨hbuf, hids⟩
  | some b =>
    obtain ⟨bt, bl, bm⟩ := b
    by_cases hcl : ChatBuffer.text ⟨bt, bl, bm⟩ = []
        ∨ ChatBuffer.lastSentText ⟨bt, bl, bm⟩ = some (ChatBuffer.text ⟨bt, bl, bm⟩)
    · rw [flushP_clean hb hcl]; exact ⟨hbuf, hids⟩
    · rw [hb] at hbuf
      by_cases hlen : MAX_MESSAGE_LENGTH < bt.length
      · cases bm with
        | none =>
          rw [InvBuf_mk_none] at hbuf
          obtain ⟨heq, hlens, _⟩ := hbuf
          obtain ⟨hbuf', hplat'⟩ := flushP_long_send hb hcl hlen rfl
          constructor
          · rw [hbuf', InvBuf_mk_none, hplat']
            refine ⟨?_, ?_, Or.inr rfl⟩
            · simp only [List.map_append, List.map_cons, List.map_nil,
                List.flatten_append, List.flatten_cons, List.flatten_nil,
                List.append_nil, List.append_assoc]
              rw [List.take_append_drop, heq]
            · intro m hm
              rcases List.mem_append.mp hm with hm1 | hm2
              · exact hlens m hm1
              · simp only [List.mem_singleton] at hm2
                subst hm2
                simp only [List.length_take]
                omega
          · intro m hm
            rw [hplat'] at hm ⊢
            simp only at hm ⊢
            rcases List.mem_append.mp hm with hm1 | hm2
            · exact Nat.lt_succ_of_lt (hids m hm1)
            · simp only [List.mem_singleton] at hm2
              subst hm2
              exact Nat.lt_succ_self _
        | some mid =>
          rw [InvBuf_mk_some] at hbuf
          obtain ⟨ms, v, hmsgs, hlast, hpre, hne, hvlen, hnotin, heq, hlens⟩ := hbuf
          obtain ⟨hbuf', hplat'⟩ := flushP_long_edit hb hcl hlen rfl
          have hmsgs' : (flushP sp c).2.messages
              = ms ++ [(mid, bt.take MAX_MESSAGE_LENGTH)] := by
            rw [hplat']
            simp only
            rw [hmsgs, editList_last ms mid v _ hnotin]
          have hnext : (flushP sp c).2.nextId = sp.2.nextId := by rw [hplat']
          constructor
          · rw [hbuf', InvBuf_mk_none, hmsgs']
            refine ⟨?_, ?_, Or.inr rfl⟩
            · simp only [List.map_append, List.map_cons, List.map_nil,
                List.flatten_append, List.flatten_cons, List.flatten_nil,
                List.append_nil, List.append_assoc]
              rw [List.take_append_drop, heq]
            · intro m hm
              rcases List.mem_append.mp hm with hm1 | hm2
              · exact hlens m hm1
              · simp only [List.mem_singleton] at hm2
                subst hm2
                simp only [List.length_take]
                omega
          · intro m hm
            rw [hmsgs'] at hm
            rw [hnext]
            rcases List.mem_append.mp hm with hm1 | hm2
            · exact hids m (by rw [hmsgs]; exact List.mem_append_left _ hm1)
            · simp only [List.mem_singleton] at hm2
              subst hm2
              exact hids (mid, v)
                (by rw [hmsgs]; exact List.mem_append_right _ (List.mem_singleton_self _))
      · cases bm with
        | none =>
          rw [InvBuf_mk_none] at hbuf
          obtain ⟨heq, hlens, _⟩ := hbuf
          obtain ⟨hbuf', hplat'⟩ := flushP_short_send hb hcl hlen rfl
          have hne : bt ≠ [] := fun he => hcl (Or.inl he)
          constructor
          · rw [hbuf', InvBuf_mk_some, hplat']
            exact ⟨sp.2.messages, bt, rfl, rfl, bt.prefix_refl, hne,
              by omega,
              fun hmem => by
                rcases List.mem_map.mp hmem with ⟨m, hm, hfst⟩
                exact absurd (hfst ▸ hids m hm) (lt_irrefl _),
              heq, hlens⟩
          · intro m hm
            rw [hplat'] at hm ⊢
            simp only at hm ⊢
            rcases List.mem_append.mp hm with hm1 | hm2
            · exact Nat.lt_succ_of_lt (hids m hm1)
            · simp only [List.mem_singleton] at hm2
              subst hm2
              exact Nat.lt_succ_self _
        | some mid =>
          rw [InvBuf_mk_some] at hbuf
          obtain ⟨ms, v, hmsgs, hlast, hpre, hne, hvlen, hnotin, heq, hlens⟩ := hbuf
          obtain ⟨hbuf', hplat'⟩ := flushP_short_edit hb hcl hlen rfl
          have hmsgs' : (flushP sp c).2.messages = ms ++ [(mid, bt)] := by
            rw [hplat']
            simp only
            rw [hmsgs, editList_last ms mid v _ hnotin]
          have hnext : (flushP sp c).2.nextId = sp.2.nextId := by rw [hplat']
          have hnet : bt ≠ [] := fun he => hcl (Or.inl he)
          constructor
          · rw [hbuf', InvBuf_mk_some]
            exact ⟨ms, bt, hmsgs', rfl, bt.prefix_refl, hnet, by omega,
              hnotin, heq, hlens⟩
          · intro m hm
            rw [hmsgs'] at hm
            rw [hnext]
            rcases List.mem_append.mp hm with hm1 | hm2
            · exact hids m (by rw [hmsgs]; exact List.mem_append_left _ hm1)
            · simp only [List.mem_singleton] at hm2
              subst hm2
              exact hids (mid, v)
                (by rw [hmsgs]; exact List.mem_append_right _ (List.mem_singleton_self _))

/-- At a quiescent state the platform displays exactly the ceiling-split of
the appended text. -/
lemma visibleTexts_of_clean (c : ChatId) (sp : BotState × Platform) (a : Str)
    (h : Inv c sp a) (hq : ¬ dirtyBuffer (sp.1.chatBuffers c)) :
    visibleTexts sp.2 = chunks a := by
  obtain ⟨hbuf, hids⟩ := h
  cases hb : sp.1.chatBuffers c with
  | none =>
    rw [hb, InvBuf_none] at hbuf
    obtain ⟨hmsgs, ha⟩ := hbuf
    rw [ha, chunks]
    simp [visibleTexts, hmsgs]
  | some b =>
    obtain ⟨bt, bl, bm⟩ := b
    rw [hb] at hbuf hq
    unfold dirtyBuffer at hq
    rw [not_not] at hq
    cases bm with
    | none =>
      rw [InvBuf_mk_none] at hbuf
      obtain ⟨heq, hlens, hlast⟩ := hbuf
      have hbt : bt = [] := by
        rcases hq with h1 | h2
        · exact h1
        · rcases hlast with h3 | h3 <;> rw [h3] at h2
          · exact absurd h2 (by simp)
          · exact (Option.some_inj.mp h2).symm
      subst hbt
      rw [List.append_nil] at heq
      have h1 : ∀ x ∈ sp.2.messages.map Prod.snd, x.length = MAX_MESSAGE_LENGTH := by
        intro x hx
        rcases List.mem_map.mp hx with ⟨m, hm, hsnd⟩
        rw [← hsnd]
        exact hlens m hm
      have hcb := chunks_blocks (sp.2.messages.map Prod.snd) [] h1
        (by simp [MAX_MESSAGE_LENGTH])
      rw [List.append_nil] at hcb
      rw [← heq, hcb]
      simp [visibleTexts]
    | some mid =>
      rw [InvBuf_mk_some] at hbuf
      obtain ⟨ms, v, hmsgs, hlast, hpre, hne, hvlen, hnotin, heq, hlens⟩ := hbuf
      have hvbt : v = bt := by
        rcases hq with h1 | h2
        · subst h1
          exact absurd (List.prefix_nil.mp hpre) hne
        · rw [hlast] at h2
          exact Option.some_inj.mp h2
      subst hvbt
      have hvne : v ≠ [] := hne
      rw [← heq, chunks_blocks (ms.map Prod.snd) v]
      · rw [if_neg hvne]
        rw [visibleTexts, hmsgs]
        simp
      · intro x hx
        rcases List.mem_map.mp hx with ⟨m, hm, hsnd⟩
        rw [← hsnd]
        exact hlens m hm
      · exact hvlen

lemma settleFuel_clean (c : ChatId) (n : Nat) (sp : BotState × Platform)
    (hq : ¬ dirtyBuffer (sp.1.chatBuffers c)) : settleFuel c n sp = sp := by
  cases n with
  | zero => rfl
  | succ n => rw [settleFuel, if_neg hq]

lemma flushP_clean_after {c : ChatId} {sp : BotState × Platform} {b : ChatBuffer}
    (hb : sp.1.chatBuffers c = some b)
    (hcl : ¬ (b.text = [] ∨ b.lastSentText = some b.text))
    (hlen : ¬ MAX_MESSAGE_LENGTH < b.text.length) :
    ¬ dirtyBuffer ((flushP sp c).1.chatBuffers c) := by
  cases hm : b.messageId with
  | none =>
    obtain ⟨hbuf', _⟩ := flushP_short_send hb hcl hlen hm
    rw [hbuf']
    unfold dirtyBuffer
    simp
  | some mid =>
    obtain ⟨hbuf', _⟩ := flushP_short_edit hb hcl hlen hm
    rw [hbuf']
    unfold dirtyBuffer
    simp

lemma flushP_long_text {c : ChatId} {sp : BotState × Platform} {b : ChatBuffer}
    (hb : sp.1.chatBuffers c = some b)
    (hcl : ¬ (b.text = [] ∨ b.lastSentText = some b.text))
    (hlen : MAX_MESSAGE_LENGTH < b.text.length) :
    (flushP sp c).1.chatBuffers c
      = some ⟨b.text.drop MAX_MESSAGE_LENGTH, some [], none⟩ := by
  cases hm : b.messageId with
  | none => exact (flushP_long_send hb hcl hlen hm).1
  | some mid => exact (flushP_long_edit hb hcl hlen hm).1

/-- With fuel at least the buffered length plus two, repeated flushing from
any invariant state lands the platform on the ceiling-split of `a`. -/
lemma settleFuel_spec (c : ChatId) :
    ∀ n (sp : BotState × Platform) (a : Str), Inv c sp a →
      (bufText sp c).length + 2 ≤ n →
      visibleTexts (settleFuel c n sp).2 = chunks a := by
  intro n
  induction n with
  | zero => intro sp a _ hn; omega
  | succ n ih =>
    intro sp a hinv hn
    by_cases hq : dirtyBuffer (sp.1.chatBuffers c)
    · rw [settleFuel, if_pos hq]
      cases hb : sp.1.chatBuffers c with
      | none => rw [hb] at hq; exact absurd hq (by unfold dirtyBuffer; simp)
      | some b =>
        have hcl : ¬ (b.text = [] ∨ b.lastSentText = some b.text) := by
          rw [hb] at hq; exact hq
        by_cases hlen : MAX_MESSAGE_LENGTH < b.text.length
        · apply ih _ a (Inv_flushP c sp a hinv)
          have hbt : bufText (flushP sp c) c = b.text.drop MAX_MESSAGE_LENGTH := by
            unfold bufText
            rw [flushP_long_text hb hcl hlen]
          rw [hbt, List.length_drop]
          have hbt0 : bufText sp c = b.text := by unfold bufText; rw [hb]
          rw [hbt0] at hn
          have hM : 1 ≤ MAX_MESSAGE_LENGTH := by unfold MAX_MESSAGE_LENGTH; omega
          omega
        · rw [settleFuel_clean c n _ (flushP_clean_after hb hcl hlen)]
          exact visibleTexts_of_clean c _ a (Inv_flushP c sp a hinv)
            (flushP_clean_after hb hcl hlen)
    · rw [settleFuel, if_neg hq]
      exact visibleTexts_of_clean c sp a hinv hq

lemma Inv_start (c : ChatId) : Inv c (startState, startPlatform) [] := by
  constructor
  · rw [show (startState, startPlatform).1.chatBuffers c = none from rfl, InvBuf_none]
    exact ⟨rfl, rfl⟩
  · intro m hm
    exact absurd hm (List.not_mem_nil m)

lemma Inv_runOps (c : ChatId) :
    ∀ (ops : List ChanOp) (sp : BotState × Platform) (a : Str), Inv c sp a →
      Inv c (runOps c sp ops) (a ++ appendsOf ops) := by
  intro ops
  induction ops with
  | nil => intro sp a h; simpa [runOps, appendsOf] using h
  | cons op ops ih =>
    intro sp a h
    cases op with
    | app f =>
      have h1 := Inv_handleChatOutput c sp a f h
      have h2 := ih (handleChatOutput sp.1 c f, sp.2) (a ++ f) h1
      rw [runOps, appendsOf, ← List.append_assoc]
      exact h2
    | flush =>
      have h1 := Inv_flushP c sp a h
      have h2 := ih (flushP sp c) a h1
      rw [runOps, appendsOf]
      exact h2

/-- C1: for every channel and every interleaving of fragment appends via
`handleChatOutput` with flush cycles, once the completion signal lets the
flush loop run to quiescence against a working platform, the texts visible
on the platform for that channel are exactly the concatenation of all
appended fragments in append order, split into successive
`MAX_MESSAGE_LENGTH`-character messages when the ceiling is exceeded — no
fragment is reordered or lost. -/
theorem appended_fragments_visible (c : ChatId) (ops : List ChanOp) :
    visibleTexts (settle c (runOps c (startState, startPlatform) ops)).2
      = chunks (appendsOf ops) := by
  have hinv := Inv_runOps c ops (startState, startPlatform) [] (Inv_start c)
  rw [List.nil_append] at hinv
  rw [settle]
  exact settleFuel_spec c _ _ _ hinv (le_refl _)

/-- C5: if the buffer is absent, its text is empty, or its text equals
`lastSentText`, `flushBuffer` is a complete no-op for every outcome. -/
theorem flushBuffer_noop (o : TransportOutcome) (st : BotState) (chatId : ChatId)
    (h : ¬ dirtyBuffer (st.chatBuffers chatId)) :
    flushBuffer o st chatId = (st, []) := by
  unfold flushBuffer
  unfold dirtyBuffer at h
  cases hb : st.chatBuffers chatId with
  | none => simp
  | some b =>
    rw [hb] at h
    simp only [not_not] at h
    simp [h]

lemma mem_addPending (l : List ChatId) (c : ChatId) : c ∈ addPending l c := by
  unfold addPending
  split
  · assumption
  · simp

/-- C4: flushing a buffer whose text exceeds the 4090-character ceiling
makes exactly one transport call carrying the first 4090 characters (an
edit of the live message when one exists, else a send), finalizes that
message by clearing `messageId`, resets the buffer to the remaining suffix
as fresh text (`lastSentText = ''`, no `messageId`), and re-enqueues the
chat for another flush cycle — for every transport outcome. -/
theorem flushBuffer_overflow (o : TransportOutcome) (st : BotState) (chatId : ChatId)
    (b : ChatBuffer) (hb : st.chatBuffers chatId = some b)
    (hlen : MAX_MESSAGE_LENGTH < b.text.length)
    (hcl : b.lastSentText ≠ some b.text) :
    (flushBuffer o st chatId).1.chatBuffers chatId
        = some ⟨b.text.drop MAX_MESSAGE_LENGTH, some [], none⟩
      ∧ (flushBuffer o st chatId).2
        = [match b.messageId with
           | some mid => .edit chatId mid (b.text.take MAX_MESSAGE_LENGTH)
           | none => .send chatId (b.text.take MAX_MESSAGE_LENGTH)]
      ∧ chatId ∈ (flushBuffer o st chatId).1.pendingChatIds := by
  have hne : b.text ≠ [] := by
    intro he
    rw [he] at hlen
    simp at hlen
  have hcl' : ¬ (b.text = [] ∨ b.lastSentText = some b.text) := by
    intro hor
    rcases hor with h1 | h2
    · exact hne h1
    · exact hcl h2
  obtain ⟨bt, bl, bm⟩ := b
  cases bm with
  | none =>
    cases o with
    | ok mid =>
      refine ⟨?_, ?_, ?_⟩ <;>
        simp [flushBuffer, hb, hcl', hlen, trackUsername, setBuffer, mem_addPending]
    | notModified =>
      refine ⟨?_, ?_, ?_⟩ <;>
        simp [flushBuffer, hb, hcl', hlen, setBuffer, mem_addPending]
    | err =>
      refine ⟨?_, ?_, ?_⟩ <;>
        simp [flushBuffer, hb, hcl', hlen, setBuffer, mem_addPending]
  | some mid =>
    refine ⟨?_, ?_, ?_⟩ <;>
      simp [flushBuffer, hb, hcl', hlen, setBuffer, mem_addPending]

/-- Concrete state for exercising the overflow split: a live message showing
4085 characters whose buffer has grown to 5000 characters. -/
def grownState : BotState :=
  ⟨fun c => if c = 5 then
      some ⟨List.replicate 5000 'a', some (List.replicate 4085 'a'), some 3⟩
    else none,
   [], fun _ => none, "bot"⟩

/-- Witness for C4, the 4085-to-5000 scenario of the spec: the flush edits
the live message to exactly the first 4090 characters and leaves a fresh
910-character buffer, re-enqueued; the following cycle sends those 910
characters as a new message. -/
theorem flushBuffer_overflow_witness :
    (grownState.chatBuffers 5
        = some ⟨List.replicate 5000 'a', some (List.replicate 4085 'a'), some 3⟩
      ∧ MAX_MESSAGE_LENGTH < (List.replicate 5000 'a').length
      ∧ (some (List.replicate 4085 'a') : Option Str) ≠ some (List.replicate 5000 'a'))
    ∧ ((flushBuffer (.ok 9) grownState 5).1.chatBuffers 5
        = some ⟨List.replicate 910 'a', some [], none⟩
      ∧ (flushBuffer (.ok 9) grownState 5).2 = [.edit 5 3 (List.replicate 4090 'a')]
      ∧ 5 ∈ (flushBuffer (.ok 9) grownState 5).1.pendingChatIds)
    ∧ (flushBuffer (.ok 9) (flushBuffer (.ok 9) grownState 5).1 5).2
        = [.send 5 (List.replicate 910 'a')] := by
  have h1 : grownState.chatBuffers 5
      = some ⟨List.replicate 5000 'a', some (List.replicate 4085 'a'), some 3⟩ := rfl
  have h2 : MAX_MESSAGE_LENGTH < (List.replicate 5000 'a').length := by
    rw [List.length_replicate]
    unfold MAX_MESSAGE_LENGTH
    omega
  have h3 : (some (List.replicate 4085 'a') : Option Str)
      ≠ some (List.replicate 5000 'a') := by
    intro h
    have := congrArg (fun x => (Option.getD x []).length) h
    simp only [Option.getD_some, List.length_replicate] at this
    omega
  have hmain := flushBuffer_overflow (.ok 9) grownState 5
    ⟨List.replicate 5000 'a', some (List.replicate 4085 'a'), some 3⟩ h1 h2 h3
  rw [List.take_replicate, List.drop_replicate,
    show MAX_MESSAGE_LENGTH = 4090 from rfl] at hmain
  norm_num at hmain
  obtain ⟨hm1, hm2, hm3⟩ := hmain
  refine ⟨⟨h1, h2, h3⟩, ⟨hm1, hm2, hm3⟩, ?_⟩
  have h910 : ¬ MAX_MESSAGE_LENGTH < (List.replicate 910 'a').length := by
    rw [List.length_replicate]
    unfold MAX_MESSAGE_LENGTH
    omega
  have h910ne : List.replicate 910 'a' ≠ ([] : Str) := by
    intro h
    have hlc := congrArg List.length h
    simp only [List.length_replicate, List.length_nil] at hlc
    omega
  have hcl : ¬ (List.replicate 910 'a' = ([] : Str)
      ∨ (some [] : Option Str) = some (List.replicate 910 'a')) := by
    intro hor
    rcases hor with ha | hb2
    · exact h910ne ha
    · exact h910ne (Option.some_inj.mp hb2).symm
  generalize hst : (flushBuffer (.ok 9) grownState 5).1 = st1 at hm1 ⊢
  generalize hgen : List.replicate 910 'a' = t at hm1 hcl h910 ⊢
  have htne : t ≠ [] := fun h => hcl (Or.inl h)
  simp [flushBuffer, hm1, hcl, h910, htne]

/-- Witness for C5 at a concrete clean buffer: flushing a buffer whose text
equals its last sent text performs no transport call and leaves the state
unchanged. -/
theorem flushBuffer_noop_witness :
    flushBuffer .err
      ⟨fun c => if c = 7 then some ⟨['h', 'i'], some ['h', 'i'], some 3⟩ else none,
       [], fun _ => none, "bot"⟩ 7
      = (⟨fun c => if c = 7 then some ⟨['h', 'i'], some ['h', 'i'], some 3⟩ else none,
          [], fun _ => none, "bot"⟩, []) := by
  apply flushBuffer_noop
  unfold dirtyBuffer
  simp

/-- The text carried by a transport call. -/
def callText : TransportCall → Str
  | .send _ t => t
  | .edit _ _ t => t

/-- Concrete state for the overflow `lastSentText` check: a fresh buffer one
character over the ceiling. -/
def overState : BotState :=
  ⟨fun c => if c = 2 then some ⟨List.replicate 4091 'a', none, none⟩ else none,
   [], fun _ => none, "bot"⟩

/-- C6 counterexample: an overflow flush sends exactly the first 4090
characters of the buffer, yet records `lastSentText = ''` — not the text
that was actually sent in that step — refuting the claim that after every
flush step performing a send or edit, `lastFlushedText` equals the text
sent or edited. -/
theorem lastSentText_overflow_counterexample :
    (flushBuffer (.ok 4) overState 2).2 = [.send 2 (List.replicate 4090 'a')]
    ∧ (flushBuffer (.ok 4) overState 2).1.chatBuffers 2
        = some ⟨List.replicate 1 'a', some [], none⟩
    ∧ (some ([] : Str)) ≠ some (List.replicate 4090 'a') := by
  have h1 : overState.chatBuffers 2
      = some ⟨List.replicate 4091 'a', none, none⟩ := rfl
  have htake : (List.replicate 4091 'a').take MAX_MESSAGE_LENGTH
      = List.replicate 4090 'a' := by
    rw [List.take_replicate, show MAX_MESSAGE_LENGTH = 4090 from rfl]
    norm_num
  have hdrop : (List.replicate 4091 'a').drop MAX_MESSAGE_LENGTH
      = List.replicate 1 'a' := by
    rw [List.drop_replicate, show MAX_MESSAGE_LENGTH = 4090 from rfl]
  have hlen : MAX_MESSAGE_LENGTH < (List.replicate 4091 'a').length := by
    rw [List.length_replicate]
    unfold MAX_MESSAGE_LENGTH
    omega
  have hne : List.replicate 4091 'a' ≠ ([] : Str) := by
    intro h
    have hlc := congrArg List.length h
    simp only [List.length_replicate, List.length_nil] at hlc
    omega
  have hcl : ¬ (List.replicate 4091 'a' = ([] : Str)
      ∨ (none : Option Str) = some (List.replicate 4091 'a')) := by
    intro hor
    rcases hor with ha | hb
    · exact hne ha
    · exact Option.noConfusion hb
  refine ⟨?_, ?_, ?_⟩
  · rw [← htake]
    generalize hgen : List.replicate 4091 'a' = u at h1 hcl hlen ⊢
    have hune : u ≠ [] := fun h => hcl (Or.inl h)
    simp [flushBuffer, h1, hcl, hlen, hune]
  · rw [← hdrop]
    generalize hgen : List.replicate 4091 'a' = u at h1 hcl hlen ⊢
    have hune : u ≠ [] := fun h => hcl (Or.inl h)
    simp [flushBuffer, h1, hcl, hlen, hune, setBuffer]
  · intro h
    have hlc := congrArg (fun x => (Option.getD x ['b']).length) h
    simp only [Option.getD_some, List.length_replicate, List.length_nil] at hlc
    omega

/-- C6 (amended): (1) in every reachable state of the channel pipeline, when
`messageId` is set the platform message with that id is the channel's last
and displays exactly `lastSentText`, a prefix of the accumulated text;
(2) every successful non-overflow flush step records in `lastSentText`
exactly the text its transport call carried.  (The overflow branch instead
resets `lastSentText` to the empty string while also clearing `messageId`,
so the displayed-prefix invariant still holds.) -/
theorem lastSentText_tracks_platform :
    (∀ (c : ChatId) (ops : List ChanOp) (b : ChatBuffer) (mid : Nat),
        (runOps c (startState, startPlatform) ops).1.chatBuffers c = some b →
        b.messageId = some mid →
        ∃ ms v, b.lastSentText = some v ∧ v <+: b.text
          ∧ (runOps c (startState, startPlatform) ops).2.messages = ms ++ [(mid, v)])
    ∧ (∀ (st : BotState) (chatId : ChatId) (b : ChatBuffer) (k : Nat),
        st.chatBuffers chatId = some b →
        dirtyBuffer (st.chatBuffers chatId) →
        ¬ MAX_MESSAGE_LENGTH < b.text.length →
        ∃ b', (flushBuffer (.ok k) st chatId).1.chatBuffers chatId = some b'
          ∧ b'.lastSentText = some b.text
          ∧ (flushBuffer (.ok k) st chatId).2.map callText = [b.text]) := by
  constructor
  · intro c ops b mid hb hmid
    have hinv := Inv_runOps c ops (startState, startPlatform) [] (Inv_start c)
    obtain ⟨hbuf, _⟩ := hinv
    obtain ⟨bt, bl, bm⟩ := b
    simp only at hmid
    subst hmid
    rw [hb, InvBuf_mk_some] at hbuf
    obtain ⟨ms, v, hmsgs, hlast, hpre, _, _, _, _, _⟩ := hbuf
    exact ⟨ms, v, hlast, hpre, hmsgs⟩
  · intro st chatId b k hb hdirty hlen
    have hd' : ¬ (b.text = [] ∨ b.lastSentText = some b.text) := by
      rw [hb] at hdirty
      exact hdirty
    obtain ⟨bt, bl, bm⟩ := b
    cases bm with
    | none =>
      refine ⟨⟨bt, some bt, some k⟩, ?_, rfl, ?_⟩ <;>
        simp [flushBuffer, hb, hd', hlen, callText]
    | some mid =>
      refine ⟨⟨bt, some bt, some mid⟩, ?_, rfl, ?_⟩ <;>
        simp [flushBuffer, hb, hd', hlen, callText]

/-- Witness for C6 at concrete inputs: after appending `"h"` and flushing,
the live message `1` displays `lastSentText = "h"`, a prefix of the buffer;
and a successful non-overflow flush of a fresh `"hi"` buffer sets
`lastSentText` to exactly the `"hi"` it sent. -/
theorem lastSentText_tracks_platform_witness :
    (((runOps 1 (startState, startPlatform) [ChanOp.app ['h'], ChanOp.flush]).1.chatBuffers 1
        = some ⟨['h'], some ['h'], some 1⟩)
      ∧ (∃ ms v, (some ['h'] : Option Str) = some v ∧ v <+: ['h']
          ∧ (runOps 1 (startState, startPlatform) [ChanOp.app ['h'], ChanOp.flush]).2.messages
              = ms ++ [(1, v)]))
    ∧ (∃ b', (flushBuffer (.ok 4)
          ⟨fun c => if c = 3 then some ⟨['h', 'i'], none, none⟩ else none,
           [], fun _ => none, "bot"⟩ 3).1.chatBuffers 3 = some b'
        ∧ b'.lastSentText = some ['h', 'i']
        ∧ (flushBuffer (.ok 4)
            ⟨fun c => if c = 3 then some ⟨['h', 'i'], none, none⟩ else none,
             [], fun _ => none, "bot"⟩ 3).2.map callText = [['h', 'i']]) := by
  constructor
  · exact ⟨rfl,
      lastSentText_tracks_platform.1 1 [ChanOp.app ['h'], ChanOp.flush]
        ⟨['h'], some ['h'], some 1⟩ 1 rfl rfl⟩
  · exact lastSentText_tracks_platform.2
      ⟨fun c => if c = 3 then some ⟨['h', 'i'], none, none⟩ else none,
       [], fun _ => none, "bot"⟩ 3 ⟨['h', 'i'], none, none⟩ 4 rfl
      (by unfold dirtyBuffer; simp)
      (by rw [show (['h', 'i'] : Str).length = 2 from rfl]
          unfold MAX_MESSAGE_LENGTH
          omega)

/-- Concrete state for the failed-flush check: chat 1 pending with a dirty
one-character buffer. -/
def dirtyState : BotState :=
  ⟨fun c => if c = 1 then some ⟨['x'], none, none⟩ else none,
   [1], fun _ => none, "bot"⟩

/-- C7 counterexample: with chat 1 pending and its buffer dirty, a cycle
whose transport call fails ends with the pending set EMPTY while the buffer
is still dirty: membership was cleared when the cycle snapshotted the set
and is not restored by the failed attempt, refuting both "remains (or is
restored as) a member of the pending-flush set" and "membership is cleared
only by a completed flush attempt". -/
theorem failed_flush_counterexample :
    (processPending (fun _ => .err) dirtyState).1.pendingChatIds = []
    ∧ (processPending (fun _ => .err) dirtyState).1.chatBuffers 1
        = some ⟨['x'], none, none⟩
    ∧ dirtyBuffer ((processPending (fun _ => .err) dirtyState).1.chatBuffers 1)
    ∧ 1 ∉ (processPending (fun _ => .err) dirtyState).1.pendingChatIds := by
  refine ⟨rfl, rfl, ?_, ?_⟩
  · rw [show (processPending (fun _ => .err) dirtyState).1.chatBuffers 1
        = some ⟨['x'], none, none⟩ from rfl]
    unfold dirtyBuffer
    simp
  · rw [show (processPending (fun _ => .err) dirtyState).1.pendingChatIds = [] from rfl]
    simp

/-- C7 (amended): when the single transport call of a non-overflow flush
fails, the error is logged and the attempt abandoned with the buffer left
unchanged (hence still dirty); but the chat's membership in the pending set
— cleared when the cycle snapshotted it — is not restored, so the dirty
buffer is retried only once a later append or completion signal re-adds the
key.  (Only the overflow branch re-adds the key, failure or not.) -/
theorem failed_flush_loses_pending (oracle : ChatId → TransportOutcome)
    (st : BotState) (chatId : ChatId) (b : ChatBuffer)
    (hpend : st.pendingChatIds = [chatId])
    (hb : st.chatBuffers chatId = some b)
    (hdirty : dirtyBuffer (st.chatBuffers chatId))
    (hlen : ¬ MAX_MESSAGE_LENGTH < b.text.length)
    (ho : oracle chatId = .err) :
    (processPending oracle st).1.pendingChatIds = []
    ∧ (processPending oracle st).1.chatBuffers = st.chatBuffers
    ∧ dirtyBuffer ((processPending oracle st).1.chatBuffers chatId)
    ∧ (processPending oracle st).2
        = [match b.messageId with
           | some mid => TransportCall.edit chatId mid b.text
           | none => TransportCall.send chatId b.text] := by
  have hd' : ¬ (b.text = [] ∨ b.lastSentText = some b.text) := by
    rw [hb] at hdirty
    exact hdirty
  have hstep : flushBuffer TransportOutcome.err { st with pendingChatIds := [] } chatId
      = ({ st with pendingChatIds := [] },
         [match b.messageId with
          | some mid => TransportCall.edit chatId mid b.text
          | none => TransportCall.send chatId b.text]) := by
    obtain ⟨bt, bl, bm⟩ := b
    cases bm with
    | none => simp [flushBuffer, hb, hd', hlen]
    | some mid => simp [flushBuffer, hb, hd', hlen]
  have hrun : processPending oracle st
      = ({ st with pendingChatIds := [] },
         [match b.messageId with
          | some mid => TransportCall.edit chatId mid b.text
          | none => TransportCall.send chatId b.text]) := by
    unfold processPending
    rw [hpend]
    simp only [List.foldl_cons, List.foldl_nil, ho, hstep, List.nil_append]
  rw [hrun]
  exact ⟨rfl, rfl, by rw [show BotState.chatBuffers { st with pendingChatIds := ([] : List ChatId) } chatId = st.chatBuffers chatId from rfl]; exact hdirty, rfl⟩

/-- Witness for C7: applying the amended theorem to the concrete dirty
pending state with an always-failing transport. -/
theorem failed_flush_loses_pending_witness :
    (dirtyState.pendingChatIds = [1]
      ∧ dirtyState.chatBuffers 1 = some ⟨['x'], none, none⟩
      ∧ dirtyBuffer (dirtyState.chatBuffers 1)
      ∧ ¬ MAX_MESSAGE_LENGTH < (['x'] : Str).length)
    ∧ ((processPending (fun _ => .err) dirtyState).1.pendingChatIds = []
      ∧ (processPending (fun _ => .err) dirtyState).1.chatBuffers
          = dirtyState.chatBuffers
      ∧ dirtyBuffer ((processPending (fun _ => .err) dirtyState).1.chatBuffers 1)) := by
  have hdirty : dirtyBuffer (dirtyState.chatBuffers 1) := by
    rw [show dirtyState.chatBuffers 1 = some ⟨['x'], none, none⟩ from rfl]
    unfold dirtyBuffer
    simp
  have hlen : ¬ MAX_MESSAGE_LENGTH < (['x'] : Str).length := by
    rw [show (['x'] : Str).length = 1 from rfl]
    unfold MAX_MESSAGE_LENGTH
    omega
  have h := failed_flush_loses_pending (fun _ => .err) dirtyState 1
    ⟨['x'], none, none⟩ rfl rfl hdirty hlen rfl
  exact ⟨⟨rfl, rfl, hdirty, hlen⟩, h.1, h.2.1, h.2.2.1⟩

/-!
## Inbound message handling: reply correlation and channels

Embedding of `handleMessage` (`TelegramBot.ts:150-199`), the `UserChannel`
record and the `receive()` async generator of
`createCommunicationChannelWithUser` (`TelegramBot.ts:106-148`).
-/

/-- Control point of the `receive()` async generator. -/
inductive RecvPos where
  | checking   -- at the head of the `while (!channel.closed)` loop
  | waiting    -- suspended on the promise registered in `channel.resolve`
  | finished   -- loop exited after observing `closed`
deriving DecidableEq

/-- Models `String.prototype.trim`: strip leading and trailing whitespace. -/
def jsTrim (s : Str) : Str :=
  ((s.dropWhile Char.isWhitespace).reverse.dropWhile Char.isWhitespace).reverse

/-- Models `String.prototype.startsWith`. -/
def jsStartsWith (s p : Str) : Bool := p.isPrefixOf s

/-- Decimal digits of a natural number (fuel-structured so the kernel can
evaluate it; the fuel `n + 1` always suffices). -/
def natDigitsAux : Nat → Nat → Str
  | 0, _ => []
  | fuel + 1, n =>
    if n < 10 then [Char.ofNat (48 + n)]
    else natDigitsAux fuel (n / 10) ++ [Char.ofNat (48 + n % 10)]

/-- JS `Number.prototype.toString` on integers. -/
def intToStr : Int → Str
  | .ofNat n => natDigitsAux (n + 1) n
  | .negSucc m => '-' :: natDigitsAux (m + 2) (m + 1)

/-- The `UserChannel` record (`chatId`, `trackedMessageIds`,
`queue`, `resolve?` modelled as the flag `hasResolver`, `closed`), extended
with the control point of its `receive()` generator and the texts the
generator has yielded so far. -/
structure UserChannel where
  chatId : Str
  trackedMessageIds : List Nat
  queue : List Str
  hasResolver : Bool
  closed : Bool
  recvPos : RecvPos
  yielded : List Str
deriving DecidableEq

/-- One group's configuration (`groupId`, `allowedUsers`, `agentType`). -/
structure GroupConfig where
  groupId : Int
  allowedUsers : List Str
  agentType : Str
deriving DecidableEq

/-- The fields of `TelegramBot` that `handleMessage` consults: the observing
bot's identity, the `messageIdToBotUsername` and `userChannels` maps — the
latter modelled as message id to channel reference, with the shared mutable
channel objects in a `channels` store — and the configured groups. -/
structure HState where
  botUsername : Str
  messageIdToBotUsername : Nat → Option Str
  userChannels : Nat → Option Nat
  channels : Nat → Option UserChannel
  groups : List (Str × GroupConfig)

/-- An inbound Telegram message as `handleMessage` reads it. -/
structure Msg where
  fromId : Option Int
  chatId : Int
  messageId : Nat
  text : Str
  replyToMessageId : Option Nat
  chatType : Str

/-- Externally visible actions of `handleMessage`: an immediate
`bot.sendMessage` or a `handleAgentMessage` invocation (the only path that
creates or drives an agent session). -/
inductive HEffect where
  | sendMessage (chatId : Int) (text : Str)
  | agentMessage (chatId : Int) (text : Str) (agentType : Str)
deriving DecidableEq

/-- JS truthiness of `msg.reply_to_message?.message_id`: id 0 is falsy
(Telegram ids are positive, so this coincides with presence). -/
def truthyId : Option Nat → Option Nat
  | some n => if n = 0 then none else some n
  | none => none

/-- Models `Set.add` on a tracked-message-id set. -/
def addTracked (l : List Nat) (n : Nat) : List Nat :=
  if n ∈ l then l else l ++ [n]

/-- Replace the channel stored under `chanRef`. -/
def setChannel (st : HState) (chanRef : Nat) (ch : UserChannel) : HState :=
  { st with channels := fun r => if r = chanRef then some ch else st.channels r }

/-- Lines 166-177 of `TelegramBot.ts`: a correlated reply tracks the new
message id for the channel and delivers the text — through
`channel.resolve({value: text, done: false})` when a resolver is pending
(the waiting generator is woken, its `await` result is DISCARDED by the
generator body, and the resolver slot is cleared), otherwise by pushing the
text onto the channel's queue. -/
def deliverReply (st : HState) (chanRef : Nat) (newMsgId : Nat) (text : Str) :
    HState :=
  match st.channels chanRef with
  | none => st
  | some ch =>
    let ch1 := { ch with trackedMessageIds := addTracked ch.trackedMessageIds newMsgId }
    let ch2 :=
      if ch1.hasResolver then
        { ch1 with hasResolver := false, recvPos := RecvPos.checking }
      else
        { ch1 with queue := ch1.queue ++ [text] }
    { setChannel st chanRef ch2 with
      userChannels := fun i => if i = newMsgId then some chanRef else st.userChannels i,
      messageIdToBotUsername :=
        fun i => if i = newMsgId then some st.botUsername else st.messageIdToBotUsername i }

/-- Lines 182-198 of `TelegramBot.ts`: the group branch.  Only
group/supergroup chats are considered; the trimmed text must start with the
bot's `@username` mention and the chat must have a configured group; a
nonempty allow-list not containing the sender yields the fixed rejection
send; otherwise the message is handed to `handleAgentMessage`. -/
def handleGroupMessage (st : HState) (msg : Msg) (userId : Str) (text : Str) :
    HState × List HEffect :=
  if msg.chatType = "group".data ∨ msg.chatType = "supergroup".data then
    let mentionString := '@' :: st.botUsername
    if jsStartsWith (jsTrim text) mentionString then
      match st.groups.find? (fun g => g.2.groupId == msg.chatId) with
      | none => (st, [])
      | some g =>
        if 0 < g.2.allowedUsers.length ∧ userId ∉ g.2.allowedUsers then
          (st, [HEffect.sendMessage msg.chatId "Sorry, you are not authorized.".data])
        else
          (st, [HEffect.agentMessage msg.chatId text g.2.agentType])
    else (st, [])
  else (st, [])

/-- Models `handleMessage` (`TelegramBot.ts:150-199`): ignore messages without a
sender id or with only-whitespace text; for a reply, drop the message unless
the replied-to id is tracked under the observing bot's own identity, then
deliver to the correlated channel when one exists, else fall through to the
group branch. -/
def handleMessage (st : HState) (msg : Msg) : HState × List HEffect :=
  match msg.fromId with
  | none => (st, [])
  | some uid =>
    let userId := intToStr uid
    let text := msg.text
    if jsTrim text = [] then (st, [])
    else
      match truthyId msg.replyToMessageId with
      | some replyToMessageId =>
        if st.messageIdToBotUsername replyToMessageId ≠ some st.botUsername then
          (st, [])
        else
          match st.userChannels replyToMessageId with
          | some chanRef => (deliverReply st chanRef msg.messageId text, [])
          | none => handleGroupMessage st msg userId text
      | none => handleGroupMessage st msg userId text

/-- One scheduler step of the `receive()` generator of channel `chanRef`:
at the loop head it exits if the channel is closed, yields the queue head if
one exists, or registers the single pending resolver and suspends.  A
resumption (see `deliverReply`) merely returns it to the loop head: the
generator never reads the awaited value. -/
def recvStep (st : HState) (chanRef : Nat) : HState :=
  match st.channels chanRef with
  | none => st
  | some ch =>
    match ch.recvPos with
    | RecvPos.checking =>
      if ch.closed then
        setChannel st chanRef { ch with recvPos := RecvPos.finished }
      else
        match ch.queue with
        | t :: rest =>
            setChannel st chanRef { ch with queue := rest, yielded := ch.yielded ++ [t] }
        | [] =>
            setChannel st chanRef { ch with hasResolver := true, recvPos := RecvPos.waiting }
    | _ => st

/-- A freshly created `UserChannel`
(mirrors `createCommunicationChannelWithUser`). -/
def freshChannel (chatId : Str) : UserChannel :=
  ⟨chatId, [], [], false, false, RecvPos.checking, []⟩

/-- Bot "mybot" with channel 0 awaiting replies to its tracked message 5. -/
def replyState : HState :=
  ⟨"mybot".data,
   fun i => if i = 5 then some "mybot".data else none,
   fun i => if i = 5 then some 0 else none,
   fun r => if r = 0 then some (freshChannel "42".data) else none,
   []⟩

/-- A user reply "hi" to tracked message 5. -/
def replyMsg : Msg := ⟨some 42, 42, 7, "hi".data, some 5, "private".data⟩

/-- C2 (bug evaluation): processing a correlated reply never invokes the
agent path, and a reply arriving while no receiver waits is queued and then
yielded in order — but a reply arriving while the receiver is SUSPENDED is
lost: `channel.resolve({value: text})` wakes the generator, which discards
the awaited value, finds the queue empty and suspends again, so `"hi"` is
neither yielded nor queued and the receive sequence stays empty, although
the claim (and the README's reply-handling contract) requires delivery
exactly once in both situations. -/
theorem suspended_reply_dropped :
    ((recvStep ((handleMessage (recvStep replyState 0) replyMsg).1) 0).channels 0).map
        (fun ch => (ch.yielded, ch.queue, ch.hasResolver))
      = some ([], [], true)
    ∧ (handleMessage (recvStep replyState 0) replyMsg).2 = []
    ∧ ((recvStep replyState 0).channels 0).map (fun ch => ch.hasResolver) = some true
    ∧ ((handleMessage replyState replyMsg).1.channels 0).map (fun ch => ch.queue)
        = some ["hi".data]
    ∧ ((recvStep (handleMessage replyState replyMsg).1 0).channels 0).map
        (fun ch => (ch.yielded, ch.queue))
      = some (["hi".data], [])
    ∧ (handleMessage replyState replyMsg).2 = [] := by
  refine ⟨?_, ?_, ?_, ?_, ?_, ?_⟩ <;> decide

/-- Bot "mybot" observing; message 5 is tracked by the DIFFERENT bot
"otherbot"; chat -100 has a configured group with an open allow-list. -/
def otherBotState : HState :=
  ⟨"mybot".data,
   fun i => if i = 5 then some "otherbot".data else none,
   fun _ => none,
   fun _ => none,
   [("dev".data, ⟨-100, [], "teamLeader".data⟩)]⟩

/-- A group message mentioning "mybot" that replies to message 5. -/
def otherBotMsg : Msg :=
  ⟨some 42, -100, 7, "@mybot deploy".data, some 5, "group".data⟩

/-- C3 counterexample: a group message replying to a message tracked under a
different bot identity is silently dropped — `handleMessage` produces no
effects at all — whereas the claim requires it to fall through to normal
authorization/session handling, which for this very message (mention
present, group configured, open allow-list) would invoke the agent, as the
reply-stripped variant of the same message does. -/
theorem reply_other_identity_counterexample :
    (handleMessage otherBotState otherBotMsg).2 = []
    ∧ (handleMessage otherBotState { otherBotMsg with replyToMessageId := none }).2
        = [HEffect.agentMessage (-100) "@mybot deploy".data "teamLeader".data]
    ∧ (handleMessage otherBotState otherBotMsg).2
        ≠ (handleMessage otherBotState { otherBotMsg with replyToMessageId := none }).2 := by
  refine ⟨?_, ?_, ?_⟩ <;> decide

/-- C3 (amended): an inbound message replying to a message whose tracked
origin identity differs from the observing bot's identity resolves to no
channel and `handleMessage` returns immediately — no state change, no
transport send, no session handling; the message is silently dropped rather
than falling through to the authorization/session path. -/
theorem reply_other_identity_dropped (st : HState) (msg : Msg) (uid : Int)
    (rid : Nat) (origin : Str)
    (hfrom : msg.fromId = some uid)
    (htext : ¬ jsTrim msg.text = [])
    (hreply : truthyId msg.replyToMessageId = some rid)
    (htracked : st.messageIdToBotUsername rid = some origin)
    (hident : origin ≠ st.botUsername) :
    handleMessage st msg = (st, []) := by
  have hneq : st.messageIdToBotUsername rid ≠ some st.botUsername := by
    rw [htracked]
    simp [hident]
  simp [handleMessage, hfrom, htext, hreply, hneq]

/-- Witness for C3 at the tracked-by-otherbot state: all hypotheses hold and
the reply message is dropped without effects. -/
theorem reply_other_identity_dropped_witness :
    (otherBotMsg.fromId = some 42
      ∧ ¬ jsTrim otherBotMsg.text = []
      ∧ truthyId otherBotMsg.replyToMessageId = some 5
      ∧ otherBotState.messageIdToBotUsername 5 = some "otherbot".data
      ∧ "otherbot".data ≠ otherBotState.botUsername)
    ∧ handleMessage otherBotState otherBotMsg = (otherBotState, []) := by
  refine ⟨⟨rfl, by decide, rfl, rfl, by decide⟩, ?_⟩
  exact reply_other_identity_dropped otherBotState otherBotMsg 42 5 "otherbot".data
    rfl (by decide) rfl rfl (by decide)

lemma handleGroupMessage_ignored (st : HState) (msg : Msg) (userId t : Str)
    (hcond : jsStartsWith (jsTrim t) ('@' :: st.botUsername) = false
      ∨ st.groups.find? (fun g => g.2.groupId == msg.chatId) = none) :
    handleGroupMessage st msg userId t = (st, []) := by
  unfold handleGroupMessage
  by_cases htype : msg.chatType = "group".data ∨ msg.chatType = "supergroup".data
  · rw [if_pos htype]
    rcases hcond with h1 | h1
    · rw [if_neg (by simp [h1])]
    · by_cases hsw : jsStartsWith (jsTrim t) ('@' :: st.botUsername)
      · rw [if_pos hsw, h1]
      · rw [if_neg hsw]
  · rw [if_neg htype]

/-- C10: a group or supergroup message that does not resolve to a
correlated channel is processed with no transport send and no agent
invocation whenever its trimmed text does not start with the bot's
`@username` mention or the chat has no matching group configuration; and
any message with no sender id or only-whitespace text is ignored outright
with no side effects. -/
theorem group_message_filtered (st : HState) (msg : Msg) :
    (∀ uid, msg.fromId = some uid →
      ¬ jsTrim msg.text = [] →
      (∀ rid, truthyId msg.replyToMessageId = some rid →
        st.messageIdToBotUsername rid = some st.botUsername →
        st.userChannels rid = none) →
      (msg.chatType = "group".data ∨ msg.chatType = "supergroup".data) →
      (jsStartsWith (jsTrim msg.text) ('@' :: st.botUsername) = false
        ∨ st.groups.find? (fun g => g.2.groupId == msg.chatId) = none) →
      handleMessage st msg = (st, []))
    ∧ ((msg.fromId = none ∨ jsTrim msg.text = []) →
      handleMessage st msg = (st, [])) := by
  constructor
  · intro uid hfrom htext hnochan htype hcond
    have hg := handleGroupMessage_ignored st msg (intToStr uid) msg.text hcond
    simp only [handleMessage, hfrom, htext, if_false, ite_false]
    cases hr : truthyId msg.replyToMessageId with
    | none => exact hg
    | some rid =>
      show (if st.messageIdToBotUsername rid ≠ some st.botUsername then (st, [])
        else match st.userChannels rid with
          | some chanRef => (deliverReply st chanRef msg.messageId msg.text, [])
          | none => handleGroupMessage st msg (intToStr uid) msg.text) = (st, [])
      by_cases hident : st.messageIdToBotUsername rid ≠ some st.botUsername
      · rw [if_pos hident]
      · rw [if_neg hident]
        push_neg at hident
        rw [hnochan rid hr hident]
        exact hg
  · intro h
    rcases h with h1 | h1
    · simp [handleMessage, h1]
    · cases hfrom : msg.fromId with
      | none => simp [handleMessage, hfrom]
      | some uid => simp [handleMessage, hfrom, h1]

/-- Bot state with one configured group and no tracked messages. -/
def quietState : HState :=
  ⟨"mybot".data, fun _ => none, fun _ => none, fun _ => none,
   [("dev".data, ⟨-100, [], "teamLeader".data⟩)]⟩

/-- A group message that does not mention the bot. -/
def noMentionMsg : Msg := ⟨some 42, -100, 8, "hello".data, none, "group".data⟩

/-- A group message whose text is only whitespace. -/
def blankMsg : Msg := ⟨some 42, -100, 9, "   ".data, none, "group".data⟩

/-- Witness for C10: a mention-less group message and a whitespace-only
message are both ignored with no effects and no state change. -/
theorem group_message_filtered_witness :
    (noMentionMsg.fromId = some 42
      ∧ ¬ jsTrim noMentionMsg.text = []
      ∧ (noMentionMsg.chatType = "group".data ∨ noMentionMsg.chatType = "supergroup".data)
      ∧ jsStartsWith (jsTrim noMentionMsg.text) ('@' :: quietState.botUsername) = false
      ∧ jsTrim blankMsg.text = [])
    ∧ handleMessage quietState noMentionMsg = (quietState, [])
    ∧ handleMessage quietState blankMsg = (quietState, []) := by
  refine ⟨⟨rfl, by decide, Or.inl rfl, by decide, by decide⟩, ?_, ?_⟩
  · exact (group_message_filtered quietState noMentionMsg).1 42 rfl (by decide)
      (fun rid h _ => Option.noConfusion h) (Or.inl rfl) (Or.inl (by decide))
  · exact (group_message_filtered quietState blankMsg).2 (Or.inr (by decide))

/-!
## The agent event loop of `handleAgentMessage`

Embedding of the `for await` subscription loop of `handleAgentMessage`
(`TelegramBot.ts:201-250`).  The timeout (`TelegramBot.ts:210-213`) only
calls `abortController.abort()`, ending the loop after the events processed
so far; the `finally` block then re-enqueues the chat and schedules a
flush.  The legacy handler `TelegramService.run` (`TelegramService.ts`)
instead sends "Agent timed out after N seconds." from its timeout callback;
no such send exists anywhere in `TelegramBot.ts`.
-/

/-- Agent events as classified by the subscription loop. -/
inductive AgentEvent where
  | outputChat (message : Str)
  | outputInfo (message : Str)
  | outputWarning (message : Str)
  | outputError (message : Str)
  | inputHandled (requestId : Nat)
deriving DecidableEq

/-- Observable outcome of one `handleAgentMessage` listening run: the
immediate `bot.sendMessage` texts in order, the chat fragments handed to
`handleChatOutput` in order, whether the chat was re-enqueued with a flush
scheduled (the `finally` block always does this), and the `responseSent`
flag. -/
structure AgentRunResult where
  sends : List Str
  chatOutputs : List Str
  flushScheduled : Bool
  responseSent : Bool
deriving DecidableEq

/-- The immediate send a system-level event produces
(`"[" + level.toUpperCase() + "]: " + message`). -/
def systemSend : AgentEvent → Option Str
  | .outputInfo m => some ("[INFO]: ".data ++ m)
  | .outputWarning m => some ("[WARNING]: ".data ++ m)
  | .outputError m => some ("[ERROR]: ".data ++ m)
  | _ => none

/-- The event loop of `handleAgentMessage`: chat content sets
`responseSent` and goes to the buffer; info/warning/error are sent
immediately with the bracketed level tag; an `input.handled` matching the
request re-enqueues the chat, sends "No response received from agent." when
no chat fragment was seen, and aborts the subscription (events after it are
never processed).  When the list ends without a matching `input.handled`
(the aborted-by-timeout shape), the loop just ends; either way the
`finally` block re-enqueues the chat and schedules a flush. -/
def processEvents (requestId : Nat) (responseSent : Bool) :
    List AgentEvent → AgentRunResult
  | [] => ⟨[], [], true, responseSent⟩
  | e :: rest =>
    match e with
    | .outputChat m =>
      let r := processEvents requestId true rest
      { r with chatOutputs := m :: r.chatOutputs }
    | .outputInfo m =>
      let r := processEvents requestId responseSent rest
      { r with sends := ("[INFO]: ".data ++ m) :: r.sends }
    | .outputWarning m =>
      let r := processEvents requestId responseSent rest
      { r with sends := ("[WARNING]: ".data ++ m) :: r.sends }
    | .outputError m =>
      let r := processEvents requestId responseSent rest
      { r with sends := ("[ERROR]: ".data ++ m) :: r.sends }
    | .inputHandled rid =>
      if rid = requestId then
        ⟨if responseSent then [] else ["No response received from agent.".data],
         [], true, responseSent⟩
      else processEvents requestId responseSent rest

/-- Models `handleAgentMessage` when the configured max run time elapses before
completion: the abort ends the subscription after the first `k` events;
nothing else happens — in particular no notice of any kind is sent by the
timeout handler, and the agent is not terminated. -/
def handleAgentTimeout (requestId : Nat) (events : List AgentEvent) (k : Nat) :
    AgentRunResult :=
  processEvents requestId false (events.take k)

/-- The timeout notice of the legacy `TelegramService.run` handler:
`"Agent timed out after " + maxRunTime + " seconds."`. -/
def timeoutNotice (maxRunTime : Nat) : Str :=
  "Agent timed out after ".data ++ natDigitsAux (maxRunTime + 1) maxRunTime
    ++ " seconds.".data

/-- C8 (bug evaluation): when the configured max run time elapses before
completion, `handleAgentMessage` cancels the subscription and its `finally`
block flushes any partial buffered output, no "No response received from
agent." notice is sent — but no timeout notice naming the configured
duration is sent either: the timeout handler only calls
`abortController.abort()`.  At the failing input (30-second limit elapsing
with zero events) the run performs zero sends, although the claim, the
README ("Timeout: Sends 'Agent timed out after {time} seconds.'") and the
legacy `TelegramService.run` all prescribe exactly one timeout notice. -/
theorem timeout_sends_no_notice :
    (handleAgentTimeout 1 [] 0).sends = []
    ∧ (handleAgentTimeout 1 [] 0).flushScheduled = true
    ∧ (handleAgentTimeout 1 [] 0).sends.count (timeoutNotice 30) = 0
    ∧ "No response received from agent.".data ∉ (handleAgentTimeout 1 [] 0).sends
    ∧ (handleAgentTimeout 2 [AgentEvent.outputChat "partial".data] 1).chatOutputs
        = ["partial".data]
    ∧ (handleAgentTimeout 2 [AgentEvent.outputChat "partial".data] 1).sends = []
    ∧ (handleAgentTimeout 2 [AgentEvent.outputChat "partial".data] 1).flushScheduled
        = true
    ∧ (handleAgentTimeout 2
        [AgentEvent.outputInfo "x".data, AgentEvent.outputChat "y".data,
         AgentEvent.outputChat "z".data] 2).sends = ["[INFO]: x".data]
    ∧ (handleAgentTimeout 2
        [AgentEvent.outputInfo "x".data, AgentEvent.outputChat "y".data,
         AgentEvent.outputChat "z".data] 2).chatOutputs = ["y".data] := by
  refine ⟨?_, ?_, ?_, ?_, ?_, ?_, ?_, ?_, ?_⟩ <;> decide

/-!
## The flush-cycle scheduler

Embedding of `scheduleSend` / `processPending`'s timing discipline
(`TelegramBot.ts:265-290`) as an event-loop state machine.  `time` is the
wall clock in milliseconds, `sendTimer` holds the absolute fire time of the
single pending timer, `isProcessing` is the in-flight-cycle flag.  A cycle
spans from the timer callback entering `processPending` (`fire`) to the end
of its flush loop (`finish`); `finish`'s argument abstracts whether new
appends arrived during the cycle (`pendingChatIds.size > 0` in the
`finally` block).  Completed cycles are recorded as (start, end) pairs. -/

/-- Scheduler state. -/
structure SchedState where
  time : Nat
  lastSendTime : Nat
  sendTimer : Option Nat
  isProcessing : Bool
  cycleStart : Nat
  pending : Bool
  cycles : List (Nat × Nat)

/-- Event-loop actions: the clock ticks; `scheduleSend()` is invoked (by
`handleChatOutput`, `input.handled` or the `finally` re-schedule); the
timer fires, entering `processPending`; the cycle's flushes complete. -/
inductive SchedAction where
  | tick
  | schedule
  | fire
  | finish (pendingAfter : Bool)

/-- Models `scheduleSend()`: no-op when a timer is already set or a cycle is in
flight; otherwise arm the timer for
`now + max(0, lastSendTime + 250 - now) = max(now, lastSendTime + 250)`. -/
def scheduleSend (s : SchedState) : SchedState :=
  if s.sendTimer ≠ none ∨ s.isProcessing then s
  else { s with sendTimer := some (max s.time (s.lastSendTime + 250)) }

/-- One event-loop step. -/
def schedStep (s : SchedState) : SchedAction → SchedState
  | .tick => { s with time := s.time + 1 }
  | .schedule => scheduleSend { s with pending := true }
  | .fire =>
    match s.sendTimer with
    | none => s
    | some t =>
      if t ≤ s.time then
        if s.isProcessing then s
        else { s with sendTimer := none, isProcessing := true,
                      cycleStart := s.time, pending := false }
      else s
  | .finish p' =>
    if s.isProcessing then
      let s1 := { s with lastSendTime := s.time, isProcessing := false,
                         cycles := s.cycles ++ [(s.cycleStart, s.time)],
                         pending := p' }
      if p' then scheduleSend s1 else s1
    else s

/-- End of the last completed cycle (0 when none). -/
def lastEnd : List (Nat × Nat) → Nat
  | [] => 0
  | [(_, b)] => b
  | _ :: rest => lastEnd rest

/-- Cycles are sequential, each ending no earlier than it starts, with the
next beginning at least 250 ms after the previous one ended. -/
def WellSpaced : List (Nat × Nat) → Prop
  | [] => True
  | [(a, b)] => a ≤ b
  | (a, b) :: (c, d) :: rest => a ≤ b ∧ b + 250 ≤ c ∧ WellSpaced ((c, d) :: rest)

lemma lastEnd_append_one (cs : List (Nat × Nat)) (a b : Nat) :
    lastEnd (cs ++ [(a, b)]) = b := by
  induction cs with
  | nil => rfl
  | cons hd tl ih =>
    cases tl with
    | nil => rfl
    | cons hd2 tl2 =>
      rw [List.cons_append]
      exact ih

lemma WellSpaced_append_one (cs : List (Nat × Nat)) (a b : Nat)
    (h : WellSpaced cs) (hgap : lastEnd cs + 250 ≤ a) (hab : a ≤ b) :
    WellSpaced (cs ++ [(a, b)]) := by
  induction cs with
  | nil => exact hab
  | cons hd tl ih =>
    cases tl with
    | nil =>
      obtain ⟨x, y⟩ := hd
      exact ⟨h, hgap, hab⟩
    | cons hd2 tl2 =>
      obtain ⟨x, y⟩ := hd
      obtain ⟨u, v⟩ := hd2
      obtain ⟨h1, h2, h3⟩ := h
      exact ⟨h1, h2, ih h3 hgap⟩

/-- Invariant of the scheduler: the recorded end of the last cycle is
exactly `lastSendTime`; an armed timer always points at least 250 ms past
it and excludes an in-flight cycle; an in-flight cycle started at least
250 ms past it; and completed cycles are well spaced. -/
structure SchedInv (s : SchedState) : Prop where
  last_le_time : s.lastSendTime ≤ s.time
  last_eq : s.lastSendTime = lastEnd s.cycles
  timer_ge : ∀ t, s.sendTimer = some t →
    s.lastSendTime + 250 ≤ t ∧ s.isProcessing = false
  proc_ge : s.isProcessing = true →
    s.lastSendTime + 250 ≤ s.cycleStart ∧ s.cycleStart ≤ s.time
  spaced : WellSpaced s.cycles

lemma SchedInv_scheduleSend (s : SchedState) (h : SchedInv s) :
    SchedInv (scheduleSend s) := by
  unfold scheduleSend
  by_cases hc : s.sendTimer ≠ none ∨ s.isProcessing = true
  · rw [if_pos hc]
    exact h
  · rw [if_neg hc]
    push_neg at hc
    obtain ⟨-, hc2⟩ := hc
    have hproc : s.isProcessing = false := by
      cases hb : s.isProcessing with
      | false => rfl
      | true => exact absurd hb hc2
    refine ⟨h.last_le_time, h.last_eq, ?_, ?_, h.spaced⟩
    · intro t ht
      have ht' : some (max s.time (s.lastSendTime + 250)) = some t := ht
      have ht2 : max s.time (s.lastSendTime + 250) = t := Option.some_inj.mp ht'
      refine ⟨?_, hproc⟩
      show s.lastSendTime + 250 ≤ t
      omega
    · intro hp
      exact h.proc_ge hp

lemma SchedInv_step (s : SchedState) (act : SchedAction) (h : SchedInv s) :
    SchedInv (schedStep s act) := by
  cases act with
  | tick =>
    exact ⟨Nat.le_succ_of_le h.last_le_time, h.last_eq, h.timer_ge,
      fun hp => ⟨(h.proc_ge hp).1, Nat.le_succ_of_le (h.proc_ge hp).2⟩, h.spaced⟩
  | schedule =>
    have hpre : SchedInv { s with pending := true } :=
      ⟨h.last_le_time, h.last_eq, h.timer_ge, fun hp => h.proc_ge hp, h.spaced⟩
    exact SchedInv_scheduleSend { s with pending := true } hpre
  | fire =>
    simp only [schedStep]
    cases htimer : s.sendTimer with
    | none => exact h
    | some t =>
      show SchedInv (if t ≤ s.time then
          if s.isProcessing = true then s
          else
            { s with
              sendTimer := none
              isProcessing := true
              cycleStart := s.time
              pending := false }
        else s)
      by_cases hle : t ≤ s.time
      · rw [if_pos hle]
        obtain ⟨hge, hnp⟩ := h.timer_ge t htimer
        rw [hnp, if_neg (by simp)]
        exact ⟨h.last_le_time, h.last_eq, fun u hu => Option.noConfusion hu,
          fun _ => ⟨le_trans hge hle, le_refl _⟩, h.spaced⟩
      · rw [if_neg hle]
        exact h
  | finish p' =>
    simp only [schedStep]
    cases hproc : s.isProcessing with
    | false =>
      rw [if_neg (by simp)]
      exact h
    | true =>
      rw [if_pos rfl]
      obtain ⟨hstart, hend⟩ := h.proc_ge hproc
      have htimer_none : s.sendTimer = none := by
        cases ht : s.sendTimer with
        | none => rfl
        | some t =>
          have h2 := (h.timer_ge t ht).2
          rw [hproc] at h2
          exact Bool.noConfusion h2
      have hinv1 : SchedInv
          { s with
            lastSendTime := s.time
            isProcessing := false
            cycles := s.cycles ++ [(s.cycleStart, s.time)]
            pending := p' } := by
        refine ⟨le_refl _, ?_, ?_, ?_, ?_⟩
        · show s.time = lastEnd (s.cycles ++ [(s.cycleStart, s.time)])
          rw [lastEnd_append_one]
        · intro t ht
          have ht' : s.sendTimer = some t := ht
          rw [htimer_none] at ht'
          exact Option.noConfusion ht'
        · intro hp
          exact Bool.noConfusion hp
        · show WellSpaced (s.cycles ++ [(s.cycleStart, s.time)])
          exact WellSpaced_append_one s.cycles s.cycleStart s.time h.spaced
            (by rw [← h.last_eq]; exact hstart) hend
      cases p' with
      | true =>
        rw [if_pos rfl]
        exact SchedInv_scheduleSend _ hinv1
      | false =>
        rw [if_neg (by simp)]
        exact hinv1

/-- Run the scheduler from process start (wall clock `t0`). -/
def schedRun (t0 : Nat) (acts : List SchedAction) : SchedState :=
  acts.foldl schedStep ⟨t0, 0, none, false, 0, false, []⟩

lemma SchedInv_foldl (acts : List SchedAction) :
    ∀ s : SchedState, SchedInv s → SchedInv (acts.foldl schedStep s) := by
  induction acts with
  | nil => intro s h; exact h
  | cons act rest ih =>
    intro s h
    rw [List.foldl_cons]
    exact ih _ (SchedInv_step s act h)

/-- C9: in every event-loop trace the completed flush cycles form a
sequence of disjoint intervals, each new cycle beginning at least 250 ms
after the previous one ended — so at most one flush cycle is ever in
flight across the whole process (in particular none overlap for the same
chat), and consecutive cycles respect the 250 ms minimum spacing. -/
theorem flush_cycles_spaced (t0 : Nat) (acts : List SchedAction) :
    WellSpaced (schedRun t0 acts).cycles :=
  (SchedInv_foldl acts ⟨t0, 0, none, false, 0, false, []⟩
    ⟨Nat.zero_le t0, rfl, fun _ ht => Option.noConfusion ht,
     fun hp => Bool.noConfusion hp, trivial⟩).spaced

end Telegram
